import Mathlib

/-!
Verification development for the HajimiRef reference-board application
(`HajimiRef_win11`).  The definitions below are a shallow embedding of the
canvas-interaction and board-persistence core:

* `Views/Canvas.py` — `RefItem` (graphics item: press/move/release resize
  gesture, serialization `to_dict`) and `RefView` (wheel zoom/scale,
  shift-click selection).
* `ViewModels/MainViewModel.py` — `load_board_data` / `save_board_data`.
* `Views/MainWindow.py` — `save_board`, `load_board`,
  `create_item_from_data`.

Scene coordinates and scale factors are modelled as real numbers (the
source uses `qreal` doubles); image payloads as lists of byte values
(`Nat`, with `< 256` hypotheses where the arithmetic needs them); base64
strings as lists of characters.
-/

namespace HajimiRef

/-- A 2-D point in scene coordinates (`QPointF`). -/
structure Pt where
  x : ℝ
  y : ℝ

theorem Pt.ext_iff' {p q : Pt} : p = q ↔ p.x = q.x ∧ p.y = q.y := by
  constructor
  · intro h; cases h; exact ⟨rfl, rfl⟩
  · rintro ⟨hx, hy⟩; cases p; cases q; simp_all

noncomputable instance : Add Pt := ⟨fun p q => ⟨p.x + q.x, p.y + q.y⟩⟩
noncomputable instance : Sub Pt := ⟨fun p q => ⟨p.x - q.x, p.y - q.y⟩⟩
noncomputable instance : HMul Pt ℝ Pt := ⟨fun p r => ⟨p.x * r, p.y * r⟩⟩

theorem Pt.add_def (p q : Pt) : p + q = ⟨p.x + q.x, p.y + q.y⟩ := rfl
theorem Pt.sub_def (p q : Pt) : p - q = ⟨p.x - q.x, p.y - q.y⟩ := rfl
theorem Pt.hmul_def (p : Pt) (r : ℝ) : p * r = ⟨p.x * r, p.y * r⟩ := rfl

/-- `QLineF(p, q).length()`: Euclidean length of the segment from `p`
to `q` (`Views/Canvas.py` lines 155-156 build a `QLineF` from the anchor
to a pointer position and take its length). -/
noncomputable def lineLength (p q : Pt) : ℝ :=
  Real.sqrt ((q.x - p.x) ^ 2 + (q.y - p.y) ^ 2)

/-- One scene item (`RefItem` of `Views/Canvas.py`): position and uniform
scale (`scenePos()` / `scale()`), rotation (`rotation()`, only ever set by
`QGraphicsItem`'s default of `0` since no code calls `setRotation`),
original image bytes (`self.image_data`), selection flag (kept by the
`QGraphicsScene` selection set; represented here directly on the item),
and the transient resize snapshot: `_start_scale` and `_start_pos` are set
together at gesture start (lines 138-141) and deleted together at release
(lines 184-187), so they are one optional pair here. -/
structure RefItemState where
  pos : Pt
  scale : ℝ
  rotation : ℝ
  image_data : List Nat
  selected : Bool
  snap : Option (ℝ × Pt)

/-- The resize-gesture fields living on the grabbed `RefItem`
(`_is_resizing`, `_resize_corner`, `_start_mouse_pos`,
`_anchor_scene_pos`; `Views/Canvas.py` lines 28-33). The corner is one of
`"tl" | "tr" | "bl" | "br"` when armed. -/
structure ResizeState where
  is_resizing : Bool
  resize_corner : Option String
  start_mouse_pos : Pt
  anchor_scene_pos : Pt

/-- The snapshot loop of `RefItem.mousePressEvent` (lines 137-141): every
currently selected item records its own `scale()` and `scenePos()` as
`_start_scale` / `_start_pos`. -/
def storeStartStates (items : List RefItemState) : List RefItemState :=
  items.map fun it =>
    if it.selected then { it with snap := some (it.scale, it.pos) } else it

/-- `RefItem.mouseMoveEvent` (lines 147-173), the `_is_resizing` branch.
`start_dist` and `current_dist` are the distances from the anchor to the
gesture-start pointer and to the current pointer; if `start_dist < 1e-5`
the handler returns with no update (line 158); otherwise every selected
item that carries a snapshot gets `scale := _start_scale * ratio` and
`pos := anchor + (_start_pos - anchor) * ratio` (lines 163-169).  When
`_is_resizing` is false the event is delegated to the base class (default
drag-move, outside the gesture model); the items are returned unchanged
in that case. -/
noncomputable def refItemMouseMove (rs : ResizeState) (cur : Pt)
    (items : List RefItemState) : List RefItemState :=
  if rs.is_resizing then
    let start_dist := lineLength rs.anchor_scene_pos rs.start_mouse_pos
    let current_dist := lineLength rs.anchor_scene_pos cur
    if start_dist < 1e-5 then items
    else
      let ratio := current_dist / start_dist
      items.map fun it =>
        if it.selected then
          match it.snap with
          | some s =>
              { it with
                scale := s.1 * ratio
                pos := rs.anchor_scene_pos + (s.2 - rs.anchor_scene_pos) * ratio }
          | none => it
        else it
  else items

/-- `RefItem.mouseReleaseEvent` (lines 175-190): if a resize is in
progress, clear `_is_resizing` and `_resize_corner` and delete the
snapshot attributes of every selected item; otherwise delegate to the
base class (modelled as no change). -/
def refItemMouseRelease (rs : ResizeState) (items : List RefItemState) :
    ResizeState × List RefItemState :=
  if rs.is_resizing then
    ({ rs with is_resizing := false, resize_corner := none },
     items.map fun it => if it.selected then { it with snap := none } else it)
  else (rs, items)

/-- The view state touched by `RefView.wheelEvent`: the camera zoom
factor (the view transform's uniform scale, multiplied by
`self.scale(zoom_factor, zoom_factor)`) and the scene's items. -/
structure ViewState where
  zoom : ℝ
  items : List RefItemState

/-- `RefView.wheelEvent` (`Views/Canvas.py` lines 332-347).  With the
Control modifier held, the selected items (if any) are each scaled by
`1.1` (wheel forward, `angleDelta().y() > 0`) or `0.9` (backward), and
the handler returns without touching the camera — also when the
selection is empty.  Without the modifier the camera zoom is multiplied
by the same factor. -/
noncomputable def wheelEvent (ctrl : Bool) (angleDeltaY : ℤ)
    (vs : ViewState) : ViewState :=
  if ctrl then
    if vs.items.any (·.selected) then
      let factor : ℝ := if angleDeltaY > 0 then 1.1 else 0.9
      { vs with
        items := vs.items.map fun it =>
          if it.selected then { it with scale := it.scale * factor } else it }
    else vs
  else
    let zoom_factor : ℝ := if angleDeltaY > 0 then 1.1 else 0.9
    { vs with zoom := vs.zoom * zoom_factor }

/-- The shift-click branch of `RefView.mousePressEvent`
(`Views/Canvas.py` lines 362-381), as its effect on the scene's
selection set (items identified by handles in `ℕ`).  The handler stores
the previous selection and `was_selected := item.isSelected()`, calls the
base-class handler — whose standard click behaviour, per the source's own
comment, "usually clears selection and selects the clicked item",
modelled as exactly that: the selection becomes `{clicked}` — then
re-selects every previously selected item and finally sets the clicked
item selected iff it was not selected before. -/
def shiftClickSelection (prev : Finset ℕ) (clicked : ℕ) : Finset ℕ :=
  let was_selected := clicked ∈ prev
  let after_super : Finset ℕ := {clicked}
  let restored := after_super ∪ prev
  if was_selected then restored.erase clicked else insert clicked restored

/-! ### Base64 codec

`RefItem.to_dict` encodes the stored image bytes with
`base64.b64encode(...)` (or `QByteArray.toBase64()`, the same encoding)
and `MainViewModel.load_board_data` decodes with `base64.b64decode`.
Both are the standard RFC 4648 base64 alphabet with `=` padding,
modelled here over byte lists.  The decoder below is the strict one:
Python's `b64decode` additionally discards characters outside the
alphabet before decoding, but agrees with this model on every output of
the encoder and rejects the length-mismatched inputs used as witnesses
below. -/

/-- The base64 alphabet: sextet value to character. -/
def b64Char (n : Nat) : Char :=
  if n < 26 then Char.ofNat (65 + n)
  else if n < 52 then Char.ofNat (97 + (n - 26))
  else if n < 62 then Char.ofNat (48 + (n - 52))
  else if n = 62 then '+'
  else '/'

/-- The base64 alphabet: character back to sextet value. -/
def b64CharDecode (c : Char) : Option Nat :=
  if 65 ≤ c.toNat ∧ c.toNat ≤ 90 then some (c.toNat - 65)
  else if 97 ≤ c.toNat ∧ c.toNat ≤ 122 then some (c.toNat - 97 + 26)
  else if 48 ≤ c.toNat ∧ c.toNat ≤ 57 then some (c.toNat - 48 + 52)
  else if c = '+' then some 62
  else if c = '/' then some 63
  else none

/-- `base64.b64encode` over a byte list: groups of three bytes become
four alphabet characters; a trailing group of one or two bytes is padded
with `==` or `=`. -/
def b64Encode : List Nat → List Char
  | [] => []
  | [b1] => [b64Char (b1 / 4), b64Char (b1 % 4 * 16), '=', '=']
  | [b1, b2] =>
      [b64Char (b1 / 4), b64Char (b1 % 4 * 16 + b2 / 16),
       b64Char (b2 % 16 * 4), '=']
  | b1 :: b2 :: b3 :: rest =>
      b64Char (b1 / 4) :: b64Char (b1 % 4 * 16 + b2 / 16) ::
      b64Char (b2 % 16 * 4 + b3 / 64) :: b64Char (b3 % 64) :: b64Encode rest

/-- `base64.b64decode` over a character list (strict form, see above):
four characters at a time, with `=` padding allowed only at the very
end; anything else fails. -/
def b64Decode : List Char → Option (List Nat)
  | [] => some []
  | c1 :: c2 :: c3 :: c4 :: rest =>
      match b64CharDecode c1, b64CharDecode c2 with
      | some s1, some s2 =>
          if c3 = '=' then
            if c4 = '=' ∧ rest = [] then some [s1 * 4 + s2 / 16] else none
          else
            match b64CharDecode c3 with
            | some s3 =>
                if c4 = '=' then
                  if rest = [] then
                    some [s1 * 4 + s2 / 16, s2 % 16 * 16 + s3 / 4]
                  else none
                else
                  match b64CharDecode c4, b64Decode rest with
                  | some s4, some tail =>
                      some ([s1 * 4 + s2 / 16, s2 % 16 * 16 + s3 / 4,
                             s3 % 4 * 64 + s4] ++ tail)
                  | _, _ => none
            | none => none
      | _, _ => none
  | _ => none

theorem b64CharDecode_b64Char (n : Nat) (h : n < 64) :
    b64CharDecode (b64Char n) = some n := by
  have : ∀ m : Fin 64, b64CharDecode (b64Char m.val) = some m.val := by decide
  exact this ⟨n, h⟩

theorem b64Char_ne_eq (n : Nat) (h : n < 64) : b64Char n ≠ '=' := by
  have : ∀ m : Fin 64, b64Char m.val ≠ '=' := by decide
  exact this ⟨n, h⟩

theorem b64Encode_eq_nil_iff (l : List Nat) : b64Encode l = [] ↔ l = [] := by
  match l with
  | [] => simp [b64Encode]
  | [b1] => simp [b64Encode]
  | [b1, b2] => simp [b64Encode]
  | b1 :: b2 :: b3 :: rest => simp [b64Encode]

/-- Base64 is lossless on byte lists: decoding an encoding recovers the
original bytes. -/
theorem b64Decode_b64Encode :
    ∀ l : List Nat, (∀ b ∈ l, b < 256) → b64Decode (b64Encode l) = some l
  | [], _ => rfl
  | [b1], h => by
      have hb1 : b1 < 256 := h b1 (by simp)
      have h1 : b64CharDecode (b64Char (b1 / 4)) = some (b1 / 4) :=
        b64CharDecode_b64Char _ (by omega)
      have h2 : b64CharDecode (b64Char (b1 % 4 * 16)) = some (b1 % 4 * 16) :=
        b64CharDecode_b64Char _ (by omega)
      simp only [b64Encode, b64Decode, h1, h2]
      have e1 : b1 / 4 * 4 + b1 % 4 * 16 / 16 = b1 := by omega
      rw [e1]
      simp
  | [b1, b2], h => by
      have hb1 : b1 < 256 := h b1 (by simp)
      have hb2 : b2 < 256 := h b2 (by simp)
      have h1 : b64CharDecode (b64Char (b1 / 4)) = some (b1 / 4) :=
        b64CharDecode_b64Char _ (by omega)
      have h2 : b64CharDecode (b64Char (b1 % 4 * 16 + b2 / 16)) =
          some (b1 % 4 * 16 + b2 / 16) :=
        b64CharDecode_b64Char _ (by omega)
      have h3 : b64CharDecode (b64Char (b2 % 16 * 4)) = some (b2 % 16 * 4) :=
        b64CharDecode_b64Char _ (by omega)
      have hne : b64Char (b2 % 16 * 4) ≠ '=' := b64Char_ne_eq _ (by omega)
      simp only [b64Encode, b64Decode, h1, h2, h3]
      have e1 : b1 / 4 * 4 + (b1 % 4 * 16 + b2 / 16) / 16 = b1 := by omega
      have e2 : (b1 % 4 * 16 + b2 / 16) % 16 * 16 + b2 % 16 * 4 / 4 = b2 := by
        omega
      rw [e1, e2]
      simp [hne]
  | b1 :: b2 :: b3 :: b4 :: rest, h => by
      have hb1 : b1 < 256 := h b1 (by simp)
      have hb2 : b2 < 256 := h b2 (by simp)
      have hb3 : b3 < 256 := h b3 (by simp)
      have ih : b64Decode (b64Encode (b4 :: rest)) = some (b4 :: rest) :=
        b64Decode_b64Encode (b4 :: rest) (fun b hb => h b (by simp [hb]))
      have h1 : b64CharDecode (b64Char (b1 / 4)) = some (b1 / 4) :=
        b64CharDecode_b64Char _ (by omega)
      have h2 : b64CharDecode (b64Char (b1 % 4 * 16 + b2 / 16)) =
          some (b1 % 4 * 16 + b2 / 16) :=
        b64CharDecode_b64Char _ (by omega)
      have h3 : b64CharDecode (b64Char (b2 % 16 * 4 + b3 / 64)) =
          some (b2 % 16 * 4 + b3 / 64) :=
        b64CharDecode_b64Char _ (by omega)
      have h4 : b64CharDecode (b64Char (b3 % 64)) = some (b3 % 64) :=
        b64CharDecode_b64Char _ (by omega)
      have hne3 : b64Char (b2 % 16 * 4 + b3 / 64) ≠ '=' :=
        b64Char_ne_eq _ (by omega)
      have hne4 : b64Char (b3 % 64) ≠ '=' := b64Char_ne_eq _ (by omega)
      simp only [b64Encode, b64Decode, h1, h2, h3, h4]
      have e1 : b1 / 4 * 4 + (b1 % 4 * 16 + b2 / 16) / 16 = b1 := by omega
      have e2 : (b1 % 4 * 16 + b2 / 16) % 16 * 16 +
          (b2 % 16 * 4 + b3 / 64) / 4 = b2 := by omega
      rw [e1, e2]
      simp only [if_neg hne3, if_neg hne4, ih]
      simp
      omega
  | [b1, b2, b3], h => by
      have hb1 : b1 < 256 := h b1 (by simp)
      have hb2 : b2 < 256 := h b2 (by simp)
      have hb3 : b3 < 256 := h b3 (by simp)
      have h1 : b64CharDecode (b64Char (b1 / 4)) = some (b1 / 4) :=
        b64CharDecode_b64Char _ (by omega)
      have h2 : b64CharDecode (b64Char (b1 % 4 * 16 + b2 / 16)) =
          some (b1 % 4 * 16 + b2 / 16) :=
        b64CharDecode_b64Char _ (by omega)
      have h3 : b64CharDecode (b64Char (b2 % 16 * 4 + b3 / 64)) =
          some (b2 % 16 * 4 + b3 / 64) :=
        b64CharDecode_b64Char _ (by omega)
      have h4 : b64CharDecode (b64Char (b3 % 64)) = some (b3 % 64) :=
        b64CharDecode_b64Char _ (by omega)
      have hne3 : b64Char (b2 % 16 * 4 + b3 / 64) ≠ '=' :=
        b64Char_ne_eq _ (by omega)
      have hne4 : b64Char (b3 % 64) ≠ '=' := b64Char_ne_eq _ (by omega)
      simp only [b64Encode, b64Decode, h1, h2, h3, h4]
      have e1 : b1 / 4 * 4 + (b1 % 4 * 16 + b2 / 16) / 16 = b1 := by omega
      have e2 : (b1 % 4 * 16 + b2 / 16) % 16 * 16 +
          (b2 % 16 * 4 + b3 / 64) / 4 = b2 := by omega
      rw [e1, e2]
      simp only [if_neg hne3, if_neg hne4]
      simp
      omega

/-! ### Board persistence -/

/-- One entry of the `"images"` array of a board document.  Every field
is optional: the loader reads them with `dict.get` and defaults.  `data`
holds the base64 character string. -/
structure ImgRecord where
  x : Option ℝ
  y : Option ℝ
  scale : Option ℝ
  rotation : Option ℝ
  data : Option (List Char)

/-- A parsed board document: `{"version": ..., "images": [...]}`.  A
document without an `"images"` key is read as `images = []`
(`data.get("images", [])`). -/
structure BoardDoc where
  version : Nat
  images : List ImgRecord

/-- `RefItem.to_dict` (`Views/Canvas.py` lines 216-233): serialize
position, scale, rotation and the base64 encoding of the original stored
bytes (`QByteArray.toBase64` and `base64.b64encode` produce the same
standard encoding). -/
def RefItemState.to_dict (it : RefItemState) : ImgRecord :=
  { x := some it.pos.x
    y := some it.pos.y
    scale := some it.scale
    rotation := some it.rotation
    data := some (b64Encode it.image_data) }

/-- `MainWindow.save_board` (`Views/MainWindow.py` lines 237-252) plus
`MainViewModel.save_board_data`: collect `to_dict` of every `RefItem`
returned by `self.scene.items()` and wrap them in a version-2 document.
`QGraphicsScene.items()` returns items in descending stacking order
(topmost first, per the Qt documentation); with every item at the
default z-value the stacking order is the insertion order, so the
iteration sees the reverse of the insertion sequence. -/
def save_board (scene : List RefItemState) : BoardDoc :=
  { version := 2, images := scene.reverse.map RefItemState.to_dict }

/-- One image as produced by `MainViewModel.load_board_data`: defaults
already applied, `data` decoded to raw bytes.  The loader does not read
the record's `rotation` field. -/
structure LoadedImage where
  x : ℝ
  y : ℝ
  scale : ℝ
  data : List Nat

/-- One iteration of the record loop in `MainViewModel.load_board_data`
(lines 43-56): a record whose `data` is absent (or an empty string —
both are falsy in `if b64_data:`) is skipped silently; a record whose
`data` fails to base64-decode is skipped and a warning is printed
(`"Error decoding image data"`); otherwise the image is kept with
`x`/`y` defaulting to `0` and `scale` defaulting to `1.0`.  The result
pairs the optional loaded image with the list of printed warnings. -/
noncomputable def loadRecord (img : ImgRecord) : Option LoadedImage × List String :=
  match img.data with
  | none => (none, [])
  | some s =>
      if s = [] then (none, [])
      else
        match b64Decode s with
        | some bytes =>
            (some { x := img.x.getD 0
                    y := img.y.getD 0
                    scale := img.scale.getD 1.0
                    data := bytes }, [])
        | none => (none, ["Error decoding image data"])

/-- `MainViewModel.load_board_data` (lines 33-59).  The file/parse stage
(`open` + `json.load`) is represented by its outcome, an
`Except String BoardDoc`: any exception there is caught and returned as
`(False, str(e))`, modelled as `Except.error`.  On a successful parse
the record loop runs and the collected images are returned together with
the warnings printed along the way. -/
noncomputable def load_board_data (parsed : Except String BoardDoc) :
    Except String (List LoadedImage) × List String :=
  match parsed with
  | .error e => (.error e, [])
  | .ok doc =>
      let results := doc.images.map loadRecord
      (.ok (results.filterMap Prod.fst), (results.map Prod.snd).flatten)

/-- `MainWindow.create_item_from_data` (lines 174-185): if
`QPixmap.loadFromData(data)` succeeds — represented by the `validImage`
predicate, since raster decoding is outside the model — a fresh
`RefItem` is created with the given position and scale (rotation is
never set, so it stays at the `QGraphicsItem` default `0`) and appended
to the scene (on top); otherwise nothing is added. -/
def create_item_from_data (validImage : List Nat → Bool) (data : List Nat)
    (x y scale : ℝ) (scene : List RefItemState) : List RefItemState :=
  if validImage data then
    scene ++ [{ pos := ⟨x, y⟩, scale := scale, rotation := 0,
                image_data := data, selected := false, snap := none }]
  else scene

/-- `MainWindow.load_board` (`Views/MainWindow.py` lines 254-274): on a
successful `load_board_data` the board is cleared and every loaded image
is added with `create_item_from_data(data, x, y, scale)`; on failure a
single critical message box is shown and the scene is not touched.
Returns the scene after the operation and the list of error dialogs
shown. -/
noncomputable def load_board (validImage : List Nat → Bool)
    (scene : List RefItemState) (parsed : Except String BoardDoc) :
    List RefItemState × List String :=
  match load_board_data parsed with
  | (.ok imgs, _) =>
      (imgs.foldl (fun sc im =>
        create_item_from_data validImage im.data im.x im.y im.scale sc) [], [])
  | (.error e, _) => (scene, ["load_error: " ++ e])

/-- The `RefItemState` that `create_item_from_data` builds for a loaded
image. -/
def itemOfLoaded (im : LoadedImage) : RefItemState :=
  { pos := ⟨im.x, im.y⟩, scale := im.scale, rotation := 0,
    image_data := im.data, selected := false, snap := none }

/-- The `LoadedImage` that `load_board_data` produces for a record
serialized from `it` by `to_dict`. -/
def loadedOf (it : RefItemState) : LoadedImage :=
  ⟨it.pos.x, it.pos.y, it.scale, it.image_data⟩

/-- The item state an original item comes back as after a full
save/load round trip: position, scale and bytes intact, rotation reset
to `0`, unselected, no gesture snapshot. -/
def roundTripped (it : RefItemState) : RefItemState :=
  { pos := it.pos, scale := it.scale, rotation := 0,
    image_data := it.image_data, selected := false, snap := none }

theorem load_fold (validImage : List Nat → Bool) :
    ∀ (imgs : List LoadedImage) (s0 : List RefItemState),
      imgs.foldl (fun sc im =>
        create_item_from_data validImage im.data im.x im.y im.scale sc) s0 =
      s0 ++ (imgs.filter (fun im => validImage im.data)).map itemOfLoaded
  | [], s0 => by simp
  | im :: rest, s0 => by
      by_cases hv : validImage im.data
      · simp only [List.foldl_cons, load_fold validImage rest]
        simp [create_item_from_data, itemOfLoaded, hv, List.filter_cons]
      · simp only [List.foldl_cons, load_fold validImage rest]
        simp [create_item_from_data, hv, List.filter_cons]

theorem loadRecord_to_dict (it : RefItemState)
    (hb : ∀ b ∈ it.image_data, b < 256) (hne : it.image_data ≠ []) :
    loadRecord it.to_dict = (some (loadedOf it), []) := by
  simp [loadRecord, RefItemState.to_dict, loadedOf, b64Encode_eq_nil_iff,
    hne, b64Decode_b64Encode _ hb]

theorem load_records :
    ∀ l : List RefItemState, (∀ it ∈ l, ∀ b ∈ it.image_data, b < 256) →
      (∀ it ∈ l, it.image_data ≠ []) →
      ((l.map RefItemState.to_dict).map loadRecord).filterMap Prod.fst =
        l.map loadedOf
  | [], _, _ => rfl
  | it :: rest, hb, hne => by
      have hrec := loadRecord_to_dict it (hb it (by simp)) (hne it (by simp))
      have ih := load_records rest (fun i hi => hb i (by simp [hi]))
        (fun i hi => hne i (by simp [hi]))
      simp only [List.map_cons, List.filterMap_cons, hrec, ih]

theorem lineLength_pos (p q : Pt) (h : q ≠ p) : 0 < lineLength p q := by
  apply Real.sqrt_pos.mpr
  have h' : q.x ≠ p.x ∨ q.y ≠ p.y := by
    by_contra hc
    push_neg at hc
    exact h (Pt.ext_iff'.mpr ⟨hc.1, hc.2⟩)
  rcases h' with hx | hy
  · have : 0 < (q.x - p.x) ^ 2 := pow_two_pos_of_ne_zero (sub_ne_zero.mpr hx)
    nlinarith [sq_nonneg (q.y - p.y)]
  · have : 0 < (q.y - p.y) ^ 2 := pow_two_pos_of_ne_zero (sub_ne_zero.mpr hy)
    nlinarith [sq_nonneg (q.x - p.x)]

theorem lineLength_self (p : Pt) : lineLength p p = 0 := by
  simp [lineLength]

theorem lineLength_00_34 : lineLength ⟨0, 0⟩ ⟨3, 4⟩ = 5 := by
  simp only [lineLength]
  norm_num
  rw [show (25 : ℝ) = 5 ^ 2 by norm_num]
  exact Real.sqrt_sq (by norm_num)

/-! ### Claim theorems -/

/-- C6: if loading a board file fails at the file or parse level
(unreadable file or structurally malformed document, both surfaced by
`load_board_data` as a failure result), `load_board` reports exactly one
error message and leaves the previous scene completely unmodified. -/
theorem load_failure_preserves_scene (validImage : List Nat → Bool)
    (scene : List RefItemState) (e : String) :
    load_board validImage scene (.error e) = (scene, ["load_error: " ++ e]) := by
  rfl

/-- C7: a shift-click on a selectable item toggles exactly the clicked
item's selection membership and leaves every other item's membership
unchanged; the selection size goes from `M` to `M + 1` when the clicked
item was unselected and to `M - 1` when it was selected. -/
theorem shift_click_toggles (prev : Finset ℕ) (clicked : ℕ) :
    (∀ j, j ≠ clicked → (j ∈ shiftClickSelection prev clicked ↔ j ∈ prev))
    ∧ (clicked ∈ shiftClickSelection prev clicked ↔ clicked ∉ prev)
    ∧ (clicked ∉ prev →
        (shiftClickSelection prev clicked).card = prev.card + 1)
    ∧ (clicked ∈ prev →
        (shiftClickSelection prev clicked).card = prev.card - 1) := by
  simp only [shiftClickSelection]
  by_cases hc : clicked ∈ prev
  · rw [if_pos hc]
    have hu : ({clicked} : Finset ℕ) ∪ prev = prev := by
      apply Finset.union_eq_right.mpr
      simpa using hc
    rw [hu]
    refine ⟨fun j hj => ?_, ?_, fun hn => absurd hc hn,
      fun _ => Finset.card_erase_of_mem hc⟩
    · simp [Finset.mem_erase, hj]
    · simp [Finset.mem_erase, hc]
  · rw [if_neg hc]
    have hu : insert clicked (({clicked} : Finset ℕ) ∪ prev) =
        insert clicked prev := by
      ext a
      simp [Finset.mem_insert, Finset.mem_union]
    rw [hu]
    refine ⟨fun j hj => ?_, ?_,
      fun _ => Finset.card_insert_of_not_mem hc, fun hmem => absurd hmem hc⟩
    · simp [Finset.mem_insert, hj]
    · simp [Finset.mem_insert, hc]

/-- Witness for C7 at concrete inputs: shift-clicking item `2` with
`{0, 1}` selected grows the selection to three items; shift-clicking
item `1` with `{0, 1}` selected shrinks it to one. -/
theorem shift_click_toggles_witness :
    (shiftClickSelection {0, 1} 2).card = 3 ∧
    (shiftClickSelection {0, 1} 1).card = 1 := by
  constructor
  · have h := (shift_click_toggles {0, 1} 2).2.2.1 (by decide)
    have hc : ({0, 1} : Finset ℕ).card = 2 := by decide
    omega
  · have h := (shift_click_toggles {0, 1} 1).2.2.2 (by decide)
    have hc : ({0, 1} : Finset ℕ).card = 2 := by decide
    omega

/-- C10: a Control-wheel event while the selection is empty is a
complete no-op — no item scale changes and the camera zoom is untouched
(the handler returns before reaching the camera-zoom branch). -/
theorem ctrl_wheel_empty_selection_noop (angleDeltaY : ℤ) (vs : ViewState)
    (h : vs.items.any (·.selected) = false) :
    wheelEvent true angleDeltaY vs = vs := by
  simp [wheelEvent, h]

/-- Witness for C10: a view with zoom `1` and no items is unchanged by a
Control-wheel notch. -/
theorem ctrl_wheel_empty_selection_noop_witness :
    (([] : List RefItemState).any (·.selected) = false) ∧
    wheelEvent true 1 ⟨1, []⟩ = ⟨1, []⟩ :=
  ⟨rfl, ctrl_wheel_empty_selection_noop 1 ⟨1, []⟩ rfl⟩

/-- Counterexample to C8 as stated: on a backward notch the code
multiplies the camera zoom by `0.9` (`Views/Canvas.py` line 346), which
is not `1 / 1.1 = 0.909...`: starting from zoom `1`, the zoom becomes
`0.9`, not `1 / 1.1`. -/
theorem wheel_backward_factor_cex :
    (wheelEvent false (-1) ⟨1, []⟩).zoom = 0.9 ∧
    (wheelEvent false (-1) ⟨1, []⟩).zoom ≠ 1 / 1.1 := by
  have hz : (wheelEvent false (-1) ⟨1, []⟩).zoom = 0.9 := by
    simp [wheelEvent]
  refine ⟨hz, ?_⟩
  rw [hz]
  norm_num

/-- C8 as amended: a plain wheel event multiplies the camera zoom by
`1.1` for a forward notch and by `0.9` (not `1/1.1`) for a backward
notch, leaving the items alone; a Control-wheel event with a non-empty
selection multiplies each selected item's scale by that same factor and
leaves the camera zoom unchanged. -/
theorem wheel_event_factors (angleDeltaY : ℤ) (vs : ViewState) :
    ((wheelEvent false angleDeltaY vs).zoom =
        vs.zoom * (if angleDeltaY > 0 then (1.1 : ℝ) else 0.9)
      ∧ (wheelEvent false angleDeltaY vs).items = vs.items)
    ∧ (vs.items.any (·.selected) = true →
        (wheelEvent true angleDeltaY vs).zoom = vs.zoom
        ∧ (wheelEvent true angleDeltaY vs).items = vs.items.map fun it =>
            if it.selected then
              { it with scale :=
                  it.scale * (if angleDeltaY > 0 then (1.1 : ℝ) else 0.9) }
            else it) := by
  constructor
  · constructor <;> simp [wheelEvent]
  · intro h
    constructor <;> simp [wheelEvent, h]

/-- Witness for C8 (amended) at concrete inputs: one selected item of
scale `1`; a forward Control-wheel notch leaves zoom `1` unchanged and
rescales the item by `1.1`. -/
theorem wheel_event_factors_witness :
    ([⟨⟨0, 0⟩, 1, 0, [], true, none⟩] : List RefItemState).any (·.selected)
        = true ∧
    (wheelEvent true 1 ⟨1, [⟨⟨0, 0⟩, 1, 0, [], true, none⟩]⟩).zoom = 1 ∧
    (wheelEvent true 1 ⟨1, [⟨⟨0, 0⟩, 1, 0, [], true, none⟩]⟩).items =
      [⟨⟨0, 0⟩, 1 * (1.1 : ℝ), 0, [], true, none⟩] := by
  have h := (wheel_event_factors 1
    ⟨1, [⟨⟨0, 0⟩, 1, 0, [], true, none⟩]⟩).2 rfl
  exact ⟨rfl, h.1, by rw [h.2]; norm_num⟩

/-- C4: when a resize gesture starts with anchor-to-start-pointer
distance below `1e-5`, every pointer-move event during the gesture
leaves every item's scale and position unchanged (the handler returns
before dividing by the near-zero distance), and releasing the button
clears `_is_resizing` and the armed corner, returning the controller to
the idle state. -/
theorem degenerate_resize_gesture_inert (rs : ResizeState) (cur : Pt)
    (items : List RefItemState)
    (hres : rs.is_resizing = true)
    (hdist : lineLength rs.anchor_scene_pos rs.start_mouse_pos < 1e-5) :
    refItemMouseMove rs cur items = items
    ∧ (refItemMouseRelease rs items).1.is_resizing = false
    ∧ (refItemMouseRelease rs items).1.resize_corner = none := by
  refine ⟨?_, ?_, ?_⟩
  · simp [refItemMouseMove, hres, hdist]
  · simp [refItemMouseRelease, hres]
  · simp [refItemMouseRelease, hres]

/-- Witness for C4: a gesture whose start pointer coincides with the
anchor (distance `0 < 1e-5`) ignores a later move to `(7, 7)`, and the
release leaves the resizing flag cleared. -/
theorem degenerate_resize_gesture_inert_witness :
    lineLength ⟨0, 0⟩ ⟨0, 0⟩ < 1e-5 ∧
    refItemMouseMove ⟨true, some "br", ⟨0, 0⟩, ⟨0, 0⟩⟩ ⟨7, 7⟩ [] = [] ∧
    (refItemMouseRelease ⟨true, some "br", ⟨0, 0⟩, ⟨0, 0⟩⟩ []).1.is_resizing
      = false := by
  have hd : lineLength (⟨0, 0⟩ : Pt) ⟨0, 0⟩ < 1e-5 := by
    rw [lineLength_self]
    norm_num
  have h := degenerate_resize_gesture_inert
    ⟨true, some "br", ⟨0, 0⟩, ⟨0, 0⟩⟩ ⟨7, 7⟩ [] rfl hd
  exact ⟨hd, h.1, h.2.1⟩

/-- C1: during an active resize gesture with anchor `A` and non-degenerate
start distance `d0`, a pointer-move event maps every selected item with
snapshot `(scale0, pos0)` — taken by the press handler from the item's
own pre-gesture state — to `scale = scale0 * (d1 / d0)` and
`pos = A + (pos0 - A) * (d1 / d0)`; unselected items are untouched; and
`A` is a fixed point of the position transform for every ratio. -/
theorem group_resize_own_snapshot_rule (rs : ResizeState) (cur : Pt)
    (items : List RefItemState)
    (hres : rs.is_resizing = true)
    (hdist : ¬ lineLength rs.anchor_scene_pos rs.start_mouse_pos < 1e-5) :
    (refItemMouseMove rs cur (storeStartStates items) =
      items.map fun it =>
        if it.selected then
          { it with
            snap := some (it.scale, it.pos)
            scale := it.scale *
              (lineLength rs.anchor_scene_pos cur /
                lineLength rs.anchor_scene_pos rs.start_mouse_pos)
            pos := rs.anchor_scene_pos +
              (it.pos - rs.anchor_scene_pos) *
                (lineLength rs.anchor_scene_pos cur /
                  lineLength rs.anchor_scene_pos rs.start_mouse_pos) }
        else it)
    ∧ ∀ r : ℝ, rs.anchor_scene_pos +
        (rs.anchor_scene_pos - rs.anchor_scene_pos) * r
          = rs.anchor_scene_pos := by
  constructor
  · simp only [refItemMouseMove, hres, if_true, hdist, if_false,
      storeStartStates, List.map_map]
    refine List.map_congr_left fun it _ => ?_
    by_cases hs : it.selected <;> simp [hs]
  · intro r
    rw [Pt.ext_iff']
    simp [Pt.add_def, Pt.sub_def, Pt.hmul_def]

/-- Witness for C1: anchor `(0,0)`, gesture start at `(3,4)` (distance
`5`), one selected item with scale `2` at `(1,2)`. -/
theorem group_resize_own_snapshot_rule_witness :
    ¬ lineLength ⟨0, 0⟩ ⟨3, 4⟩ < 1e-5 ∧
    refItemMouseMove ⟨true, some "br", ⟨3, 4⟩, ⟨0, 0⟩⟩ ⟨6, 8⟩
        (storeStartStates [⟨⟨1, 2⟩, 2, 0, [], true, none⟩]) =
      ([⟨⟨1, 2⟩, 2, 0, [], true, none⟩] : List RefItemState).map fun it =>
        if it.selected then
          { it with
            snap := some (it.scale, it.pos)
            scale := it.scale *
              (lineLength ⟨0, 0⟩ ⟨6, 8⟩ / lineLength ⟨0, 0⟩ ⟨3, 4⟩)
            pos := (⟨0, 0⟩ : Pt) +
              (it.pos - (⟨0, 0⟩ : Pt)) *
                (lineLength ⟨0, 0⟩ ⟨6, 8⟩ / lineLength ⟨0, 0⟩ ⟨3, 4⟩) }
        else it := by
  have hd : ¬ lineLength (⟨0, 0⟩ : Pt) ⟨3, 4⟩ < 1e-5 := by
    rw [lineLength_00_34]
    norm_num
  exact ⟨hd, (group_resize_own_snapshot_rule
    ⟨true, some "br", ⟨3, 4⟩, ⟨0, 0⟩⟩ ⟨6, 8⟩
    [⟨⟨1, 2⟩, 2, 0, [], true, none⟩] rfl hd).1⟩

/-- Counterexample to C9 as stated: nothing rejects or clamps a
non-positive scale.  During a resize gesture with anchor `(0,0)` and
start pointer `(3,4)` (start distance `5`), moving the pointer exactly
onto the anchor makes `ratio = 0/5 = 0`, and the selected item's scale —
`2 > 0` before the move — is set to `2 * 0 = 0`, violating
`scale > 0`. -/
theorem scale_invariant_cex :
    (0 : ℝ) < 2 ∧
    (refItemMouseMove ⟨true, some "br", ⟨3, 4⟩, ⟨0, 0⟩⟩ ⟨0, 0⟩
        [⟨⟨1, 1⟩, 2, 0, [], true, some (2, ⟨1, 1⟩)⟩]).map (·.scale)
      = [0] := by
  refine ⟨by norm_num, ?_⟩
  norm_num [refItemMouseMove, lineLength_00_34, lineLength_self]

/-- C9 as amended: the code never rejects or clamps a scale, but the
operations other than the degenerate ones do preserve positivity: wheel
scaling and camera zoom multiply positive scales by positive factors;
a resize move whose current pointer differs from the anchor multiplies
positive snapshots by a positive ratio; item creation with the default
scale `1.0` appends a positive-scale item.  Board load, however, applies
the file's scale value as-is with no validation (only a default of `1.0`
when absent), and a resize move with the pointer on the anchor sets the
scale to `0` (previous theorem). -/
theorem scale_positive_preservation :
    (∀ (ctrl : Bool) (angleDeltaY : ℤ) (vs : ViewState),
        (∀ it ∈ vs.items, 0 < it.scale) →
        ∀ it' ∈ (wheelEvent ctrl angleDeltaY vs).items, 0 < it'.scale)
    ∧ (∀ (rs : ResizeState) (cur : Pt) (items : List RefItemState),
        (∀ it ∈ items, 0 < it.scale) →
        (∀ it ∈ items, ∀ s, it.snap = some s → 0 < s.1) →
        cur ≠ rs.anchor_scene_pos →
        ∀ it' ∈ refItemMouseMove rs cur items, 0 < it'.scale)
    ∧ (∀ (validImage : List Nat → Bool) (data : List Nat) (x y : ℝ)
        (scene : List RefItemState),
        (∀ it ∈ scene, 0 < it.scale) →
        ∀ it' ∈ create_item_from_data validImage data x y 1.0 scene,
          0 < it'.scale)
    ∧ (∀ (r : ImgRecord) (li : LoadedImage),
        (loadRecord r).1 = some li → li.scale = r.scale.getD 1.0) := by
  have hfac : ∀ dy : ℤ, (0 : ℝ) < if dy > 0 then (1.1 : ℝ) else 0.9 := by
    intro dy
    split_ifs <;> norm_num
  refine ⟨?_, ?_, ?_, ?_⟩
  · intro ctrl dy vs h it' hmem
    cases ctrl
    · simp only [wheelEvent, Bool.false_eq_true, if_false] at hmem
      exact h it' hmem
    · by_cases hany : vs.items.any (·.selected)
      · simp only [wheelEvent, if_true, hany] at hmem
        obtain ⟨it, hit, heq⟩ := List.mem_map.mp hmem
        by_cases hs : it.selected
        · rw [if_pos hs] at heq
          rw [← heq]
          exact mul_pos (h it hit) (hfac dy)
        · rw [if_neg hs] at heq
          rw [← heq]
          exact h it hit
      · simp only [wheelEvent, if_true, hany, Bool.false_eq_true,
          if_false] at hmem
        exact h it' hmem
  · intro rs cur items h hsnap hne it' hmem
    by_cases hr : rs.is_resizing
    · by_cases hd : lineLength rs.anchor_scene_pos rs.start_mouse_pos < 1e-5
      · simp only [refItemMouseMove, hr, if_true, hd, if_false] at hmem
        exact h it' hmem
      · simp only [refItemMouseMove, hr, if_true, hd, if_false] at hmem
        obtain ⟨it, hit, heq⟩ := List.mem_map.mp hmem
        have hratio : 0 < lineLength rs.anchor_scene_pos cur /
            lineLength rs.anchor_scene_pos rs.start_mouse_pos := by
          apply div_pos (lineLength_pos _ _ hne)
          calc (0 : ℝ) < 1e-5 := by norm_num
            _ ≤ _ := not_lt.mp hd
        by_cases hs : it.selected
        · rw [if_pos hs] at heq
          cases hsn : it.snap with
          | none => rw [hsn] at heq; rw [← heq]; exact h it hit
          | some s =>
              rw [hsn] at heq
              rw [← heq]
              exact mul_pos (hsnap it hit s hsn) hratio
        · rw [if_neg hs] at heq
          rw [← heq]
          exact h it hit
    · simp only [refItemMouseMove, hr, if_false] at hmem
      exact h it' hmem
  · intro v data x y scene h it' hmem
    by_cases hv : v data
    · simp only [create_item_from_data, hv, if_true, List.mem_append,
        List.mem_singleton] at hmem
      rcases hmem with hmem | hmem
      · exact h it' hmem
      · rw [hmem]
        norm_num
    · simp only [create_item_from_data, hv, Bool.false_eq_true,
        if_false] at hmem
      exact h it' hmem
  · intro r li h
    match hdata : r.data with
    | none => simp [loadRecord, hdata] at h
    | some s =>
        by_cases hs : s = []
        · simp [loadRecord, hdata, hs] at h
        · cases hdec : b64Decode s with
          | none => simp [loadRecord, hdata, hs, hdec] at h
          | some bytes =>
              simp only [loadRecord, hdata, hs, hdec, if_false] at h
              rw [← Option.some_inj.mp h]

/-- Witness for C9 (amended): a Control-wheel notch on one selected item
of scale `2` keeps all scales positive; and a record carrying
`scale = -3` is loaded with scale exactly `-3` (the stored value, no
clamping). -/
theorem scale_positive_preservation_witness :
    (∀ it' ∈ (wheelEvent true 1
        ⟨1, [⟨⟨0, 0⟩, 2, 0, [], true, none⟩]⟩).items, 0 < it'.scale) ∧
    (⟨0, 0, -3, [7]⟩ : LoadedImage).scale =
      (⟨none, none, some (-3), none, some (b64Encode [7])⟩ :
        ImgRecord).scale.getD 1.0 := by
  constructor
  · apply scale_positive_preservation.1 true 1
    intro it hit
    rw [List.mem_singleton] at hit
    rw [hit]
    norm_num
  · apply scale_positive_preservation.2.2.2
      ⟨none, none, some (-3), none, some (b64Encode [7])⟩
    have hd : b64Decode (b64Encode [7]) = some [7] := by decide
    have hn : ¬ b64Encode [7] = [] := by decide
    simp [loadRecord, hd, hn]

/-- Counterexample to C5 as stated: a record whose `data` field is
absent is skipped, but silently — the `print` warning runs only in the
base64 decode-failure branch, and `if b64_data:` simply bypasses the
record — so "skipped with a logged warning" is false for absent data:
the load succeeds with an empty warning list. -/
theorem load_missing_data_silent_cex :
    loadRecord ⟨none, none, none, none, none⟩ = (none, []) ∧
    load_board_data (.ok ⟨2, [⟨none, none, none, none, none⟩]⟩)
      = (.ok [], []) := by
  constructor <;> rfl

/-- C5 as amended: a record whose `data` is absent is skipped silently;
a record whose `data` fails to decode is skipped with the logged warning
`"Error decoding image data"`; neither aborts the load (the result stays
a success whose images are exactly the loadable records); a loaded
record defaults a missing `x`/`y` to `0` and a missing `scale` to
`1.0`. -/
theorem load_record_policy :
    (∀ r : ImgRecord, r.data = none → loadRecord r = (none, []))
    ∧ (∀ (r : ImgRecord) (s : List Char), r.data = some s → s ≠ [] →
        b64Decode s = none →
        loadRecord r = (none, ["Error decoding image data"]))
    ∧ (∀ (r : ImgRecord) (s : List Char) (bytes : List Nat),
        r.data = some s → s ≠ [] → b64Decode s = some bytes →
        loadRecord r =
          (some ⟨r.x.getD 0, r.y.getD 0, r.scale.getD 1.0, bytes⟩, []))
    ∧ (∀ doc : BoardDoc,
        (load_board_data (.ok doc)).1 =
          .ok (doc.images.filterMap fun r => (loadRecord r).1)) := by
  refine ⟨?_, ?_, ?_, ?_⟩
  · intro r h
    simp [loadRecord, h]
  · intro r s h hs hdec
    simp [loadRecord, h, hs, hdec]
  · intro r s bytes h hs hdec
    simp [loadRecord, h, hs, hdec]
  · intro doc
    simp only [load_board_data, List.filterMap_map]
    rfl

/-- Witness for C5 (amended): `"QQ"` is undecodable (bad length), so a
record carrying it is skipped with the warning; a record carrying the
encoding of byte `7` and no other fields loads with the defaults
`x = 0`, `y = 0`, `scale = 1.0`. -/
theorem load_record_policy_witness :
    b64Decode [Char.ofNat 81, Char.ofNat 81] = none ∧
    loadRecord ⟨none, none, none, none,
        some [Char.ofNat 81, Char.ofNat 81]⟩
      = (none, ["Error decoding image data"]) ∧
    loadRecord ⟨none, none, none, none, some (b64Encode [7])⟩
      = (some ⟨0, 0, 1.0, [7]⟩, []) := by
  refine ⟨by decide, ?_, ?_⟩
  · exact load_record_policy.2.1 _ [Char.ofNat 81, Char.ofNat 81] rfl
      (by decide) (by decide)
  · have h := load_record_policy.2.2.1
      ⟨none, none, none, none, some (b64Encode [7])⟩
      (b64Encode [7]) [7] rfl (by decide) (by decide)
    simpa using h

/-- Counterexample to C3 as stated: two items inserted in order A (bytes
`[0]`, bottom) then B (bytes `[1]`, top).  `save_board` serializes the
scene topmost-first (Qt's `items()` order) and `load_board` re-adds in
file order, so after the round trip the insertion sequence is `B', A'` —
B at the bottom, A on top — the reverse of the original relative
stacking order. -/
theorem zorder_not_preserved_cex :
    ((load_board (fun _ => true) []
        (.ok (save_board [⟨⟨0, 0⟩, 1, 0, [0], false, none⟩,
                          ⟨⟨0, 0⟩, 1, 0, [1], false, none⟩]))).1.map
      (·.image_data)) = [[1], [0]] ∧
    ([[1], [0]] : List (List Nat)) ≠ [[0], [1]] := by
  constructor
  · have h0 : b64Decode (b64Encode [0]) = some [0] := by decide
    have h1 : b64Decode (b64Encode [1]) = some [1] := by decide
    have hn0 : ¬ b64Encode [0] = [] := by decide
    have hn1 : ¬ b64Encode [1] = [] := by decide
    simp [load_board, load_board_data, save_board, RefItemState.to_dict,
      loadRecord, create_item_from_data, h0, h1, hn0, hn1]
  · decide

/-- C3 as amended: a save/load round trip REVERSES the stacking order:
for any scene whose items have well-formed, non-empty, decodable image
bytes, the loaded insertion sequence is exactly the reverse of the
original insertion sequence (each item round-tripped with position,
scale and bytes intact). -/
theorem save_load_reverses_zorder (validImage : List Nat → Bool)
    (s0 scene : List RefItemState)
    (hb : ∀ it ∈ scene, ∀ b ∈ it.image_data, b < 256)
    (hne : ∀ it ∈ scene, it.image_data ≠ [])
    (hv : ∀ it ∈ scene, validImage it.image_data = true) :
    (load_board validImage s0 (.ok (save_board scene))).1 =
      scene.reverse.map roundTripped := by
  have hb' : ∀ it ∈ scene.reverse, ∀ b ∈ it.image_data, b < 256 :=
    fun it hit => hb it (List.mem_reverse.mp hit)
  have hne' : ∀ it ∈ scene.reverse, it.image_data ≠ [] :=
    fun it hit => hne it (List.mem_reverse.mp hit)
  have hrec := load_records scene.reverse hb' hne'
  simp only [load_board, load_board_data, save_board]
  rw [hrec, load_fold]
  rw [List.filter_map]
  rw [show List.filter ((fun im => validImage im.data) ∘ loadedOf)
        scene.reverse = scene.reverse from
    List.filter_eq_self.mpr (fun it hit => hv it (List.mem_reverse.mp hit))]
  simp only [List.map_map, List.nil_append]
  exact List.map_congr_left fun it _ => rfl

/-- Witness for C3 (amended) at a concrete two-item scene. -/
theorem save_load_reverses_zorder_witness :
    (load_board (fun _ => true) []
        (.ok (save_board [⟨⟨1, 1⟩, 1, 0, [2], false, none⟩,
                          ⟨⟨3, 3⟩, 1, 0, [4], false, none⟩]))).1 =
      ([⟨⟨1, 1⟩, 1, 0, [2], false, none⟩,
        ⟨⟨3, 3⟩, 1, 0, [4], false, none⟩] :
          List RefItemState).reverse.map roundTripped := by
  apply save_load_reverses_zorder
  · intro it hit b hb
    fin_cases hit <;> simp_all
  · intro it hit
    fin_cases hit <;> simp
  · intro it hit
    fin_cases hit <;> rfl

/-- C2: evaluation at the failing input.  A board holding one item with
rotation `90` (position `(5,6)`, scale `2`, bytes `[7]`) is saved and
reloaded: position, scale and image bytes come back identical, but the
rotation comes back `0`, not `90` — `load_board_data` never reads the
record's `rotation` field and `create_item_from_data` never sets a
rotation, even though `to_dict` faithfully writes it to the file. -/
theorem roundtrip_drops_rotation :
    (load_board (fun _ => true) []
        (.ok (save_board [⟨⟨5, 6⟩, 2, 90, [7], false, none⟩]))).1 =
      [⟨⟨5, 6⟩, 2, 0, [7], false, none⟩] ∧ (90 : ℝ) ≠ 0 := by
  constructor
  · have h7 : b64Decode (b64Encode [7]) = some [7] := by decide
    have hn7 : ¬ b64Encode [7] = [] := by decide
    simp [load_board, load_board_data, save_board, RefItemState.to_dict,
      loadRecord, create_item_from_data, h7, hn7]
  · norm_num

end HajimiRef
